import Mathlib

/-!
Verification of the ytdl-backend cleanup scheduler, error classification and
duration formatting, shallowly embedded from `backend/scheduler.py`,
`backend/downloader.py` and `backend/main.py`.

Times are modelled as integers (seconds); `datetime.now() + timedelta(hours=h)`
becomes `now + h * 3600`.  The scheduled-files dict is an association list in
insertion order; Python dict assignment is `dictInsert` (update in place, else
append).  The downloads directory is a list of entries (name, mtime, isFile);
`os.remove` failures are modelled by an oracle `fails : String → Bool`.
-/

namespace Ytdl

/-- Python substring test `pat in s` on character lists. -/
def hasSubList (pat : List Char) : List Char → Bool
  | [] => pat.isEmpty
  | c :: rest => pat.isPrefixOf (c :: rest) || hasSubList pat rest

/-- Python `pat in s` for strings. -/
def containsSub (s pat : String) : Bool := hasSubList pat.toList s.toList

/-- Python `s.lower()` (ASCII). -/
def lowerStr (s : String) : String := String.mk (s.toList.map Char.toLower)

/-- Python `os.path.basename` (POSIX): the part after the last slash. -/
def basename (p : String) : String :=
  String.mk ((p.toList.reverse.takeWhile (fun c => c ≠ '/')).reverse)

/-- Python `os.path.join(d, f)` for a directory path with no trailing slash. -/
def joinPath (d f : String) : String := d ++ "/" ++ f

/-- Python dict assignment `m[k] = v`: replace in place, else append. -/
def dictInsert (k : String) (v : ℤ) : List (String × ℤ) → List (String × ℤ)
  | [] => [(k, v)]
  | (k', v') :: rest =>
    if k' = k then (k, v) :: rest else (k', v') :: dictInsert k v rest

/-- Python dict lookup `m.get(k)`. -/
def dictLookup (k : String) : List (String × ℤ) → Option ℤ
  | [] => none
  | (k', v) :: rest => if k' = k then some v else dictLookup k rest

/-- Number of entries stored under key `k`. -/
def countKey (k : String) (m : List (String × ℤ)) : Nat :=
  (m.filter (fun p => p.1 == k)).length

/-- A directory entry: name, last-modified time, and whether it is a
regular file (`os.path.isfile`). -/
structure Entry where
  name : String
  mtime : ℤ
  isFile : Bool
deriving DecidableEq

/-- `FileCleanupScheduler.schedule_file_cleanup(filepath, cleanup_after_hours)`:
keys the dict by `os.path.basename(filepath)` and records
`datetime.now() + timedelta(hours=cleanup_after_hours)`. -/
def schedule_file_cleanup (now : ℤ) (filepath : String) (cleanup_after_hours : ℤ)
    (scheduled_files : List (String × ℤ)) : List (String × ℤ) :=
  dictInsert (basename filepath) (now + cleanup_after_hours * 3600) scheduled_files

/-- `os.path.exists(join(downloads_dir, name))` within the downloads dir. -/
def existsIn (dir : List Entry) (name : String) : Bool :=
  dir.any (fun e => e.name == name)

/-- Remove the entry called `name` from the directory listing. -/
def removeEntry (name : String) (dir : List Entry) : List Entry :=
  dir.filter (fun e => e.name != name)

/-- Result of `_cleanup_expired_files`: the surviving schedule, the surviving
directory, the full paths on which `os.remove` was attempted, and the names
actually removed. -/
structure ExpiredResult where
  sched : List (String × ℤ)
  dir : List Entry
  attempts : List String
  removed : List String
deriving DecidableEq

/-- `FileCleanupScheduler._cleanup_expired_files`: for each scheduled entry with
`current_time >= scheduled_time`, attempt `os.remove(join(downloads_dir, filename))`
if the path exists (failures are logged and ignored), and drop the entry from
the schedule regardless of the delete outcome. -/
def cleanupExpired (ddir : String) (now : ℤ) (fails : String → Bool) :
    List (String × ℤ) → List Entry → ExpiredResult
  | [], dir => ⟨[], dir, [], []⟩
  | (f, texp) :: rest, dir =>
    if now ≥ texp then
      if existsIn dir f then
        if fails f then
          ⟨(cleanupExpired ddir now fails rest dir).sched,
           (cleanupExpired ddir now fails rest dir).dir,
           joinPath ddir f :: (cleanupExpired ddir now fails rest dir).attempts,
           (cleanupExpired ddir now fails rest dir).removed⟩
        else
          ⟨(cleanupExpired ddir now fails rest (removeEntry f dir)).sched,
           (cleanupExpired ddir now fails rest (removeEntry f dir)).dir,
           joinPath ddir f :: (cleanupExpired ddir now fails rest (removeEntry f dir)).attempts,
           f :: (cleanupExpired ddir now fails rest (removeEntry f dir)).removed⟩
      else
        cleanupExpired ddir now fails rest dir
    else
      ⟨(f, texp) :: (cleanupExpired ddir now fails rest dir).sched,
       (cleanupExpired ddir now fails rest dir).dir,
       (cleanupExpired ddir now fails rest dir).attempts,
       (cleanupExpired ddir now fails rest dir).removed⟩

/-- Result of `_cleanup_old_files`: surviving directory and removed names. -/
structure OldResult where
  dir : List Entry
  removed : List String
deriving DecidableEq

/-- Body of `FileCleanupScheduler._cleanup_old_files`: delete every regular
file whose mtime is strictly below `time.time() - (2 * 3600)`. -/
def cleanupOldGo (now : ℤ) (fails : String → Bool) : List Entry → OldResult
  | [] => ⟨[], []⟩
  | e :: rest =>
    if e.isFile = true ∧ e.mtime < now - 2 * 3600 then
      if fails e.name then
        ⟨e :: (cleanupOldGo now fails rest).dir, (cleanupOldGo now fails rest).removed⟩
      else
        ⟨(cleanupOldGo now fails rest).dir, e.name :: (cleanupOldGo now fails rest).removed⟩
    else
      ⟨e :: (cleanupOldGo now fails rest).dir, (cleanupOldGo now fails rest).removed⟩

/-- `FileCleanupScheduler._cleanup_old_files`: returns immediately when the
downloads directory does not exist. -/
def cleanupOld (now : ℤ) (fails : String → Bool) (dirExists : Bool)
    (dir : List Entry) : OldResult :=
  if dirExists then cleanupOldGo now fails dir else ⟨dir, []⟩

/-- Result of one pass of `_cleanup_loop`. -/
structure PassResult where
  sched : List (String × ℤ)
  dir : List Entry
  removed : List String
deriving DecidableEq

/-- One iteration of `FileCleanupScheduler._cleanup_loop`:
`_cleanup_expired_files()` then `_cleanup_old_files()`. -/
def cleanupPass (ddir : String) (now : ℤ) (fails : String → Bool) (dirExists : Bool)
    (sched : List (String × ℤ)) (dir : List Entry) : PassResult :=
  let r1 := cleanupExpired ddir now fails sched dir
  let r2 := cleanupOld now fails dirExists r1.dir
  ⟨r1.sched, r2.dir, r1.removed ++ r2.removed⟩

/-- `FileCleanupScheduler` control state: the `running` flag plus the number of
live `_cleanup_loop` threads. -/
structure SchedState where
  running : Bool
  activeLoops : Nat
deriving DecidableEq

/-- `FileCleanupScheduler.__init__`: not running, no thread. -/
def initSched : SchedState := ⟨false, 0⟩

/-- `FileCleanupScheduler.start`: returns at once when already running,
otherwise sets `running` and launches one `_cleanup_loop` thread. -/
def startSched (s : SchedState) : SchedState :=
  if s.running then s else ⟨true, s.activeLoops + 1⟩

/-- `FileCleanupScheduler.stop`: clears `running` and joins the loop thread
with `timeout=5`.  The join is best-effort: the loop sleeps
`cleanup_interval` (3600 seconds) between passes, so the thread does not
observe the cleared flag within the join window and stays alive; it exits
only when it next reaches the `while self.running` check and finds the flag
still cleared (a later `wake` event). -/
def stopSched (s : SchedState) : SchedState := ⟨false, s.activeLoops⟩

/-- A loop thread waking at the top of `_cleanup_loop` and evaluating
`while self.running`: if the flag is cleared the thread exits, otherwise it
runs another pass and sleeps again. -/
def wakeSched (s : SchedState) : SchedState :=
  if s.running then s else ⟨s.running, s.activeLoops - 1⟩

/-- A scheduler event: a `start()` call, a `stop()` call, or a loop thread
waking and checking the `running` flag. -/
inductive SchedOp where
  | startOp
  | stopOp
  | wakeOp
deriving DecidableEq

/-- Apply one scheduler event. -/
def applySchedOp (s : SchedState) : SchedOp → SchedState
  | .startOp => startSched s
  | .stopOp => stopSched s
  | .wakeOp => wakeSched s

/-! The downloader (`backend/downloader.py`) and the request handler
(`backend/main.py`).  Sleeps and randomized delays have no observable effect on
the returned values and are elided. -/

/-- Message raised in `download_video` for bot-detection errors. -/
def msgBlocked : String :=
  "YouTube is currently blocking automated requests from this server. This is a temporary restriction that affects many hosting providers. Please try again later or use a different video."

/-- Message raised in `download_video` for unavailable/private/removed videos. -/
def msgUnavailable : String :=
  "This video is unavailable, private, or has been removed from YouTube."

/-- Message raised in `download_video` for age-restricted videos. -/
def msgAgeRestricted : String :=
  "This video is age-restricted and cannot be downloaded."

/-- Message raised in `download_video` for copyright-protected videos. -/
def msgCopyright : String :=
  "This video is protected by copyright and cannot be downloaded."

/-- Message raised in `download_video` when all extraction strategies failed. -/
def msgTempBlocked : String :=
  "YouTube is temporarily blocking this server. This is common with hosting providers. Please try again in 10-15 minutes."

/-- Message raised by the strategy loop when no strategy produced info. -/
def msgAllFailed : String :=
  "All extraction strategies failed. YouTube may be temporarily blocking this server."

/-- The `except` block of `VideoDownloader.download_video` (lines 254-269):
rewrites the caught error text by substring matching. -/
def classifyRaise (e : String) : String :=
  let low := lowerStr e
  if containsSub low "bot" || containsSub low "sign in" then msgBlocked
  else if containsSub low "video unavailable" || containsSub low "unavailable" then
    msgUnavailable
  else if containsSub low "age" && containsSub low "restricted" then msgAgeRestricted
  else if containsSub low "copyright" then msgCopyright
  else if containsSub e "extraction strategies failed" then msgTempBlocked
  else "Download failed: " ++ e

/-- The `except` block of the `/api/download` handler in `main.py`
(lines 106-121): maps the error text to an HTTP status code. -/
def httpStatus (e : String) : Nat :=
  if containsSub e "YouTube is currently blocking" then 429
  else if containsSub e "Video unavailable" || containsSub e "video is unavailable" then 404
  else if containsSub (lowerStr e) "age-restricted" then 400
  else if containsSub (lowerStr e) "private" then 400
  else if containsSub (lowerStr e) "copyright" then 400
  else 500

/-- The strategy loop of `VideoDownloader.download_video` (lines 130-186) over
the indices still to try.  `attempt i` is the outcome of `extract_info` under
strategy `i`; on success the loop keeps the info and the strategy index.  A
bot-detection error moves on to the next strategy (after a delay); any other
error is re-raised when this was the last strategy, else the loop continues.
When no strategy succeeded the loop raises `msgAllFailed`. -/
def loopStrats (attempt : Nat → Except String α) (n : Nat) :
    List Nat → Except String (Nat × α)
  | [] => .error msgAllFailed
  | i :: rest =>
    match attempt i with
    | .ok v => .ok (i, v)
    | .error e =>
      if containsSub (lowerStr e) "bot" || containsSub (lowerStr e) "sign in" then
        loopStrats attempt n rest
      else if i == n - 1 then .error e
      else loopStrats attempt n rest

/-- The strategy loop run over all `n` strategies (`for i, strategy in
enumerate(strategies)`). -/
def tryStrategies (attempt : Nat → Except String α) (n : Nat) :
    Except String (Nat × α) :=
  loopStrats attempt n (List.range n)

/-! `VideoDownloader._format_duration`.  Durations are Python floats, embedded
as rationals; `x // y` is floor division and `int` truncates toward zero. -/

/-- Python `int(q)`: truncation toward zero. -/
def pyInt (q : ℚ) : ℤ := if 0 ≤ q then ⌊q⌋ else ⌈q⌉

/-- Python float `a // b`: the floor of the quotient, as a number. -/
def pyFloorDiv (a b : ℚ) : ℚ := (⌊a / b⌋ : ℤ)

/-- Python float `a % b`: `a - b * (a // b)`. -/
def pyMod (a b : ℚ) : ℚ := a - b * (⌊a / b⌋ : ℤ)

/-- Python `f"{i:02d}"`: decimal, zero-padded to width 2. -/
def pad2 (i : ℤ) : String :=
  if (toString i).length < 2 then "0" ++ toString i else toString i

/-- `VideoDownloader._format_duration`: `None` for `None`; otherwise
`HH:MM:SS` when there is a nonzero hours field, else `MM:SS`. -/
def formatDuration : Option ℚ → Option String
  | none => none
  | some duration =>
    let hours : ℤ := pyInt (pyFloorDiv duration 3600)
    let minutes : ℤ := pyInt (pyFloorDiv (pyMod duration 3600) 60)
    let seconds : ℤ := pyInt (pyMod duration 60)
    if hours > 0 then
      some (pad2 hours ++ ":" ++ pad2 minutes ++ ":" ++ pad2 seconds)
    else
      some (pad2 minutes ++ ":" ++ pad2 seconds)

/-! Helper lemmas. -/

theorem dictLookup_dictInsert_self (k : String) (v : ℤ) (m : List (String × ℤ)) :
    dictLookup k (dictInsert k v m) = some v := by
  induction m with
  | nil => simp [dictInsert, dictLookup]
  | cons hd tl ih =>
    obtain ⟨k', v'⟩ := hd
    by_cases h : k' = k
    · simp [dictInsert, dictLookup, h]
    · simp [dictInsert, dictLookup, h, ih]

theorem dictLookup_dictInsert_ne (k k' : String) (v : ℤ) (m : List (String × ℤ))
    (h : k' ≠ k) : dictLookup k' (dictInsert k v m) = dictLookup k' m := by
  have hk : k ≠ k' := Ne.symm h
  induction m with
  | nil => simp [dictInsert, dictLookup, hk]
  | cons hd tl ih =>
    obtain ⟨k₀, v₀⟩ := hd
    by_cases h0 : k₀ = k
    · subst h0
      simp [dictInsert, dictLookup, hk]
    · simp [dictInsert, dictLookup, h0, ih]

theorem countKey_dictInsert (k : String) (v : ℤ) (m : List (String × ℤ))
    (h : countKey k m ≤ 1) : countKey k (dictInsert k v m) = 1 := by
  induction m with
  | nil => simp [dictInsert, countKey]
  | cons hd tl ih =>
    obtain ⟨k', v'⟩ := hd
    by_cases h0 : k' = k
    · subst h0
      have h1 : (tl.filter (fun p => p.1 == k')).length = 0 := by
        simp only [countKey, List.filter_cons, beq_self_eq_true, if_true,
          List.length_cons] at h
        omega
      simp [dictInsert, countKey, List.filter_cons, h1]
    · have hb : (k' == k) = false := beq_eq_false_iff_ne.mpr h0
      have h' : countKey k tl ≤ 1 := by
        simpa only [countKey, List.filter_cons, hb, if_false] using h
      simp only [dictInsert, if_neg h0, countKey, List.filter_cons, hb,
        Bool.false_eq_true, if_false]
      exact ih h'

theorem mem_removeEntry (f : String) (dir : List Entry) (e : Entry)
    (hmem : e ∈ dir) (hne : e.name ≠ f) : e ∈ removeEntry f dir := by
  simp [removeEntry, List.mem_filter, hmem, hne]

theorem mem_cleanupExpired_dir (ddir : String) (now : ℤ) (fails : String → Bool)
    (sched : List (String × ℤ)) (dir : List Entry) (e : Entry)
    (hmem : e ∈ dir) (hlk : dictLookup e.name sched = none) :
    e ∈ (cleanupExpired ddir now fails sched dir).dir := by
  induction sched generalizing dir with
  | nil => exact hmem
  | cons hd tl ih =>
    obtain ⟨f, texp⟩ := hd
    have hne : f ≠ e.name := by
      intro hh
      simp [dictLookup, hh] at hlk
    have hlk' : dictLookup e.name tl = none := by
      simpa [dictLookup, hne] using hlk
    by_cases h : now ≥ texp
    · by_cases he : existsIn dir f = true
      · by_cases hf : fails f = true
        · simpa [cleanupExpired, h, he, hf] using ih dir hmem hlk'
        · have hm' : e ∈ removeEntry f dir :=
            mem_removeEntry f dir e hmem (fun hh => hne hh.symm)
          simpa [cleanupExpired, h, he, hf] using ih (removeEntry f dir) hm' hlk'
      · simpa [cleanupExpired, h, he] using ih dir hmem hlk'
    · simpa [cleanupExpired, h] using ih dir hmem hlk'

theorem cleanupOldGo_removes (now : ℤ) (fails : String → Bool) (dir : List Entry)
    (e : Entry) (hmem : e ∈ dir) (hf : e.isFile = true)
    (hm : e.mtime < now - 2 * 3600) (hfail : fails e.name = false) :
    e.name ∈ (cleanupOldGo now fails dir).removed := by
  induction dir with
  | nil => simp at hmem
  | cons hd tl ih =>
    rcases List.mem_cons.mp hmem with rfl | htl
    · have hflne : ¬ fails e.name = true := by simp [hfail]
      simp only [cleanupOldGo, if_pos (And.intro hf hm), if_neg hflne]
      exact List.mem_cons_self _ _
    · have hr := ih htl
      by_cases hc : hd.isFile = true ∧ hd.mtime < now - 2 * 3600
      · by_cases hfl : fails hd.name = true
        · simp only [cleanupOldGo, if_pos hc, if_pos hfl]
          exact hr
        · simp only [cleanupOldGo, if_pos hc, if_neg hfl, List.mem_cons]
          exact Or.inr hr
      · simp only [cleanupOldGo, if_neg hc]
        exact hr

/-! Claim theorems. -/

/-- C1 (counterexample): a cleanup-loop pass can delete a file strictly before
its recorded expiry.  With `f.mkv` scheduled at time 0 for cleanup after 5
hours (expiry 18000) and mtime 0, the pass at time 10800 removes the file via
the old-files sweep even though 10800 < 18000 and the entry is still
scheduled. -/
theorem c1_sweep_deletes_unexpired_scheduled_file :
    (cleanupPass "downloads" 10800 (fun _ => false) true
        (schedule_file_cleanup 0 "downloads/f.mkv" 5 [])
        [⟨"f.mkv", 0, true⟩]).removed = ["f.mkv"]
    ∧ (cleanupPass "downloads" 10800 (fun _ => false) true
        (schedule_file_cleanup 0 "downloads/f.mkv" 5 [])
        [⟨"f.mkv", 0, true⟩]).sched = [("f.mkv", 18000)]
    ∧ (10800 : ℤ) < 18000 := by
  constructor
  · decide
  constructor
  · decide
  · decide

/-- C1 (amended): the expired-files pass itself deletes a file only when the
current time has reached the recorded expiry of a schedule entry for that
name; the old-files sweep, however, may delete a still-scheduled, unexpired
file (see the counterexample). -/
theorem c1_expired_pass_only_after_expiry (ddir : String) (now : ℤ)
    (fails : String → Bool) (sched : List (String × ℤ)) (dir : List Entry)
    (f : String) (hf : f ∈ (cleanupExpired ddir now fails sched dir).removed) :
    ∃ texp, (f, texp) ∈ sched ∧ texp ≤ now := by
  induction sched generalizing dir with
  | nil => simp [cleanupExpired] at hf
  | cons hd tl ih =>
    obtain ⟨g, texp⟩ := hd
    by_cases h : now ≥ texp
    · by_cases he : existsIn dir g = true
      · by_cases hfl : fails g = true
        · simp only [cleanupExpired, h, if_true, he, hfl] at hf
          obtain ⟨t', ht', hle⟩ := ih dir hf
          exact ⟨t', List.mem_cons_of_mem _ ht', hle⟩
        · simp only [cleanupExpired, h, if_true, he, hfl, Bool.false_eq_true,
            if_false, List.mem_cons] at hf
          rcases hf with rfl | hf
          · exact ⟨texp, List.mem_cons_self _ _, h⟩
          · obtain ⟨t', ht', hle⟩ := ih (removeEntry g dir) hf
            exact ⟨t', List.mem_cons_of_mem _ ht', hle⟩
      · simp only [cleanupExpired, h, if_true, he, Bool.false_eq_true, if_false] at hf
        obtain ⟨t', ht', hle⟩ := ih dir hf
        exact ⟨t', List.mem_cons_of_mem _ ht', hle⟩
    · simp only [cleanupExpired, h, if_false] at hf
      obtain ⟨t', ht', hle⟩ := ih dir hf
      exact ⟨t', List.mem_cons_of_mem _ ht', hle⟩

/-- C1 witness: a concrete expired entry is removed and the theorem locates
its schedule entry with expiry at or before the current time. -/
theorem c1_expired_pass_only_after_expiry_witness :
    "f.mkv" ∈ (cleanupExpired "downloads" 10 (fun _ => false)
        [("f.mkv", 0)] [⟨"f.mkv", 0, true⟩]).removed
    ∧ ∃ texp, ("f.mkv", texp) ∈ [("f.mkv", (0 : ℤ))] ∧ texp ≤ 10 :=
  ⟨by decide,
   c1_expired_pass_only_after_expiry "downloads" 10 (fun _ => false)
     [("f.mkv", 0)] [⟨"f.mkv", 0, true⟩] "f.mkv" (by decide)⟩

/-- C2 (counterexample): scheduling `f.mkv` first for 2 hours and then for 1
hour (both at time 0) leaves the second, earlier expiry 3600 in the mapping,
not the later of the two computed expiries 7200. -/
theorem c2_last_write_not_later_expiry :
    schedule_file_cleanup 0 "f.mkv" 1 (schedule_file_cleanup 0 "f.mkv" 2 [])
      = [("f.mkv", 3600)]
    ∧ max ((0 : ℤ) + 2 * 3600) ((0 : ℤ) + 1 * 3600) = 7200
    ∧ (3600 : ℤ) ≠ 7200 := by
  refine ⟨by decide, by decide, by decide⟩

/-- C2 (amended): after two `schedule_file_cleanup` calls for the same
filename, the mapping holds exactly one entry for that filename and its expiry
is the one computed by the second call (last write wins); this is the later of
the two only when the second computed expiry is at least the first. -/
theorem c2_reschedule_single_entry_last_write (f : String) (n1 h1 n2 h2 : ℤ)
    (sched : List (String × ℤ)) (hc : countKey (basename f) sched ≤ 1) :
    countKey (basename f)
        (schedule_file_cleanup n2 f h2 (schedule_file_cleanup n1 f h1 sched)) = 1
    ∧ dictLookup (basename f)
        (schedule_file_cleanup n2 f h2 (schedule_file_cleanup n1 f h1 sched))
        = some (n2 + h2 * 3600) := by
  have hstep : countKey (basename f) (schedule_file_cleanup n1 f h1 sched) = 1 := by
    simp only [schedule_file_cleanup]
    exact countKey_dictInsert _ _ _ hc
  constructor
  · simp only [schedule_file_cleanup]
    exact countKey_dictInsert _ _ _ (by simpa [schedule_file_cleanup] using hstep.le)
  · simp only [schedule_file_cleanup]
    exact dictLookup_dictInsert_self _ _ _

/-- C2 witness: concrete reschedule of the same file. -/
theorem c2_reschedule_single_entry_last_write_witness :
    countKey (basename "downloads/f.mkv")
        (schedule_file_cleanup 0 "downloads/f.mkv" 1
          (schedule_file_cleanup 0 "downloads/f.mkv" 2 [])) = 1
    ∧ dictLookup (basename "downloads/f.mkv")
        (schedule_file_cleanup 0 "downloads/f.mkv" 1
          (schedule_file_cleanup 0 "downloads/f.mkv" 2 []))
        = some (0 + 1 * 3600) :=
  c2_reschedule_single_entry_last_write "downloads/f.mkv" 0 2 0 1 [] (by decide)

/-- C5: a regular file in the downloads directory whose mtime is more than 2
hours old is deleted by a cleanup pass even when it has no entry in
`scheduled_files` (and its deletion does not fail). -/
theorem c5_old_unscheduled_file_deleted (ddir : String) (now : ℤ)
    (fails : String → Bool) (sched : List (String × ℤ)) (dir : List Entry)
    (e : Entry) (hmem : e ∈ dir) (hf : e.isFile = true)
    (hm : e.mtime < now - 2 * 3600) (hlk : dictLookup e.name sched = none)
    (hfail : fails e.name = false) :
    e.name ∈ (cleanupPass ddir now fails true sched dir).removed := by
  have h1 := mem_cleanupExpired_dir ddir now fails sched dir e hmem hlk
  have h2 := cleanupOldGo_removes now fails
    (cleanupExpired ddir now fails sched dir).dir e h1 hf hm hfail
  simp only [cleanupPass, cleanupOld, if_pos rfl]
  exact List.mem_append.mpr (Or.inr h2)

/-- C5 witness: a concrete unscheduled stale file is removed. -/
theorem c5_old_unscheduled_file_deleted_witness :
    "old.mkv" ∈ (cleanupPass "downloads" 10000 (fun _ => false) true []
      [⟨"old.mkv", 0, true⟩]).removed :=
  c5_old_unscheduled_file_deleted "downloads" 10000 (fun _ => false) []
    [⟨"old.mkv", 0, true⟩] ⟨"old.mkv", 0, true⟩ (by decide) (by decide)
    (by decide) (by decide) (by decide)

/-- C6: `_cleanup_expired_files` keeps exactly the schedule entries whose
expiry is still in the future, dropping every entry with
`current_time >= scheduled_time` regardless of file existence or delete
failure, and keeping the rest unchanged (in order, with their expiries). -/
theorem c6_expired_entries_pruned (ddir : String) (now : ℤ)
    (fails : String → Bool) (sched : List (String × ℤ)) (dir : List Entry) :
    (cleanupExpired ddir now fails sched dir).sched
      = sched.filter (fun p => decide (now < p.2)) := by
  induction sched generalizing dir with
  | nil => rfl
  | cons hd tl ih =>
    obtain ⟨f, texp⟩ := hd
    by_cases h : now ≥ texp
    · have hx : ¬ now < texp := not_lt.mpr h
      by_cases he : existsIn dir f = true
      · by_cases hfl : fails f = true
        · simp only [cleanupExpired, if_pos h, if_pos he, if_pos hfl, ih,
            List.filter_cons]
          simp [hx]
        · simp only [cleanupExpired, if_pos h, if_pos he, if_neg hfl, ih,
            List.filter_cons]
          simp [hx]
      · simp only [cleanupExpired, if_pos h, if_neg he, ih, List.filter_cons]
        simp [hx]
    · have hx : now < texp := lt_of_not_ge h
      simp only [cleanupExpired, if_neg h, ih, List.filter_cons]
      simp [hx]

/-- Invariant tying the live-loop count to the `running` flag; it is
preserved by `start` calls but not by `stop` (whose best-effort join leaves
the sleeping thread alive). -/
def schedInvariant (s : SchedState) : Prop :=
  s.activeLoops = if s.running then 1 else 0

theorem schedInvariant_start (s : SchedState)
    (h : schedInvariant s) : schedInvariant (startSched s) := by
  by_cases hr : s.running
  · simpa [startSched, hr] using h
  · simp only [schedInvariant, hr, if_false] at h
    simp [startSched, hr, schedInvariant, h]

theorem schedInvariant_foldl_start :
    ∀ ops : List SchedOp, (∀ op ∈ ops, op = SchedOp.startOp) →
      ∀ s : SchedState, schedInvariant s →
        schedInvariant (ops.foldl applySchedOp s) := by
  intro ops
  induction ops with
  | nil => exact fun _ s h => h
  | cons op rest ih =>
    intro hops s h
    have hop : op = SchedOp.startOp := hops op (List.mem_cons_self _ _)
    subst hop
    exact ih (fun o ho => hops o (List.mem_cons_of_mem _ ho)) (startSched s)
      (schedInvariant_start s h)

/-- C7 (counterexample): the program can have two cleanup loops alive at
once, refuting the claim's at-most-one-loop bound.  The loop sleeps
`cleanup_interval` (3600 seconds) between passes, so the thread survives
`stop()`'s `join(timeout=5)`; with no wake of the old thread before the next
`start()`, the trace start, stop, start reaches `running` with two live
loops: the asleep survivor, which resumes looping since the flag is set
again, and the newly launched one. -/
theorem c7_stop_survivor_two_loops :
    ([SchedOp.startOp, SchedOp.stopOp, SchedOp.startOp].foldl applySchedOp
        initSched).activeLoops = 2
    ∧ 1 < ([SchedOp.startOp, SchedOp.stopOp, SchedOp.startOp].foldl applySchedOp
        initSched).activeLoops := by
  refine ⟨by decide, by decide⟩

/-- C7 (amended): `start` is idempotent when already running — the state is
unchanged and no additional loop is launched — and when not running it sets
the flag and launches exactly one loop, so along any sequence of `start`
calls alone at most one cleanup loop is ever alive.  The original global
bound fails once `stop` is interleaved: a loop thread that sleeps through the
best-effort join survives, and a subsequent `start` adds a second live loop
(see the counterexample). -/
theorem c7_start_launches_at_most_one :
    (∀ s : SchedState, s.running = true → startSched s = s)
    ∧ (∀ s : SchedState, s.running = false →
        startSched s = ⟨true, s.activeLoops + 1⟩)
    ∧ (∀ ops : List SchedOp, (∀ op ∈ ops, op = SchedOp.startOp) →
        (ops.foldl applySchedOp initSched).activeLoops ≤ 1) := by
  refine ⟨?_, ?_, ?_⟩
  · intro s h
    simp [startSched, h]
  · intro s h
    simp [startSched, h]
  · intro ops hops
    have h : schedInvariant (ops.foldl applySchedOp initSched) :=
      schedInvariant_foldl_start ops hops initSched
        (by simp [schedInvariant, initSched])
    have h' : (ops.foldl applySchedOp initSched).activeLoops
        = if (ops.foldl applySchedOp initSched).running then 1 else 0 := h
    rw [h']
    split <;> simp

/-- C7 witness: concrete states and a double-start call sequence. -/
theorem c7_start_launches_at_most_one_witness :
    startSched ⟨true, 1⟩ = ⟨true, 1⟩
    ∧ startSched ⟨false, 0⟩ = ⟨true, 0 + 1⟩
    ∧ ([SchedOp.startOp, SchedOp.startOp].foldl applySchedOp
        initSched).activeLoops ≤ 1 :=
  ⟨c7_start_launches_at_most_one.1 ⟨true, 1⟩ rfl,
   c7_start_launches_at_most_one.2.1 ⟨false, 0⟩ rfl,
   c7_start_launches_at_most_one.2.2 [SchedOp.startOp, SchedOp.startOp]
     (by decide)⟩

theorem cleanupExpired_attempts (ddir : String) (now : ℤ)
    (fails : String → Bool) (sched : List (String × ℤ)) (dir : List Entry)
    (a : String) (ha : a ∈ (cleanupExpired ddir now fails sched dir).attempts) :
    ∃ f texp, (f, texp) ∈ sched ∧ a = joinPath ddir f := by
  induction sched generalizing dir with
  | nil => simp [cleanupExpired] at ha
  | cons hd tl ih =>
    obtain ⟨g, t⟩ := hd
    by_cases h : now ≥ t
    · by_cases he : existsIn dir g = true
      · by_cases hfl : fails g = true
        · simp only [cleanupExpired, if_pos h, if_pos he, if_pos hfl,
            List.mem_cons] at ha
          rcases ha with rfl | ha
          · exact ⟨g, t, List.mem_cons_self _ _, rfl⟩
          · obtain ⟨f, texp, hmem, rfl⟩ := ih dir ha
            exact ⟨f, texp, List.mem_cons_of_mem _ hmem, rfl⟩
        · simp only [cleanupExpired, if_pos h, if_pos he, if_neg hfl,
            List.mem_cons] at ha
          rcases ha with rfl | ha
          · exact ⟨g, t, List.mem_cons_self _ _, rfl⟩
          · obtain ⟨f, texp, hmem, rfl⟩ := ih (removeEntry g dir) ha
            exact ⟨f, texp, List.mem_cons_of_mem _ hmem, rfl⟩
      · simp only [cleanupExpired, if_pos h, if_neg he] at ha
        obtain ⟨f, texp, hmem, rfl⟩ := ih dir ha
        exact ⟨f, texp, List.mem_cons_of_mem _ hmem, rfl⟩
    · simp only [cleanupExpired, if_neg h] at ha
      obtain ⟨f, texp, hmem, rfl⟩ := ih dir ha
      exact ⟨f, texp, List.mem_cons_of_mem _ hmem, rfl⟩

/-- C8: `schedule_file_cleanup` keys its entry by the basename of the given
path: the entry is stored (and found) under `basename filepath`, other keys
are untouched, two paths with the same basename collide into a single entry,
and every delete attempted by `_cleanup_expired_files` targets
`downloads_dir/<scheduled name>`, never any other path. -/
theorem c8_basename_keying :
    (∀ (now : ℤ) (p : String) (h : ℤ) (sched : List (String × ℤ)),
      dictLookup (basename p) (schedule_file_cleanup now p h sched)
        = some (now + h * 3600))
    ∧ (∀ (p1 p2 : String) (n1 h1 n2 h2 : ℤ), basename p1 = basename p2 →
        schedule_file_cleanup n2 p2 h2 (schedule_file_cleanup n1 p1 h1 [])
          = [(basename p2, n2 + h2 * 3600)])
    ∧ (∀ (k : String) (now : ℤ) (p : String) (h : ℤ)
        (sched : List (String × ℤ)), k ≠ basename p →
        dictLookup k (schedule_file_cleanup now p h sched) = dictLookup k sched)
    ∧ (∀ (ddir : String) (now : ℤ) (fails : String → Bool)
        (sched : List (String × ℤ)) (dir : List Entry) (a : String),
        a ∈ (cleanupExpired ddir now fails sched dir).attempts →
        ∃ f texp, (f, texp) ∈ sched ∧ a = joinPath ddir f) := by
  refine ⟨?_, ?_, ?_, ?_⟩
  · intro now p h sched
    simp only [schedule_file_cleanup]
    exact dictLookup_dictInsert_self _ _ _
  · intro p1 p2 n1 h1 n2 h2 hb
    simp [schedule_file_cleanup, dictInsert, hb]
  · intro k now p h sched hk
    simp only [schedule_file_cleanup]
    exact dictLookup_dictInsert_ne _ _ _ _ hk
  · intro ddir now fails sched dir a ha
    exact cleanupExpired_attempts ddir now fails sched dir a ha

/-- C8 witness: two paths in different directories with the same basename, and
a concrete delete attempt inside the downloads directory. -/
theorem c8_basename_keying_witness :
    dictLookup (basename "a/x.mkv") (schedule_file_cleanup 0 "a/x.mkv" 1 [])
      = some (0 + 1 * 3600)
    ∧ schedule_file_cleanup 5 "b/x.mkv" 2 (schedule_file_cleanup 0 "a/x.mkv" 1 [])
      = [(basename "b/x.mkv", 5 + 2 * 3600)]
    ∧ dictLookup "y.mkv" (schedule_file_cleanup 0 "a/x.mkv" 1 [])
      = dictLookup "y.mkv" []
    ∧ ∃ f texp, (f, texp) ∈ [("x.mkv", (0 : ℤ))]
        ∧ joinPath "downloads" "x.mkv" = joinPath "downloads" f :=
  ⟨c8_basename_keying.1 0 "a/x.mkv" 1 [],
   c8_basename_keying.2.1 "a/x.mkv" "b/x.mkv" 0 1 5 2 (by decide),
   c8_basename_keying.2.2.1 "y.mkv" 0 "a/x.mkv" 1 [] (by decide),
   c8_basename_keying.2.2.2 "downloads" 10 (fun _ => false) [("x.mkv", 0)]
     [⟨"x.mkv", 0, true⟩] (joinPath "downloads" "x.mkv") (by decide)⟩

/-- C9: the old-file sweep never touches anything but regular files strictly
older than the cutoff: a missing downloads directory means no change and no
removals; entries that are not regular files, or whose mtime is at or after
the cutoff, remain in the directory; and every removed name belonged to a
regular file strictly older than the cutoff. -/
theorem c9_sweep_safety :
    (∀ (now : ℤ) (fails : String → Bool) (dir : List Entry),
      cleanupOld now fails false dir = ⟨dir, []⟩)
    ∧ (∀ (now : ℤ) (fails : String → Bool) (dir : List Entry) (e : Entry),
        e ∈ dir → (e.isFile = false ∨ now - 2 * 3600 ≤ e.mtime) →
        e ∈ (cleanupOldGo now fails dir).dir)
    ∧ (∀ (now : ℤ) (fails : String → Bool) (dir : List Entry) (nm : String),
        nm ∈ (cleanupOldGo now fails dir).removed →
        ∃ e, e ∈ dir ∧ e.name = nm ∧ e.isFile = true
          ∧ e.mtime < now - 2 * 3600) := by
  refine ⟨?_, ?_, ?_⟩
  · intro now fails dir
    rfl
  · intro now fails dir e hmem hsafe
    induction dir with
    | nil => simp at hmem
    | cons hd tl ih =>
      rcases List.mem_cons.mp hmem with rfl | htl
      · have hc : ¬(e.isFile = true ∧ e.mtime < now - 2 * 3600) := by
          rintro ⟨hx1, hx2⟩
          rcases hsafe with hs | hs
          · rw [hx1] at hs
            simp at hs
          · linarith
        simp only [cleanupOldGo, if_neg hc]
        exact List.mem_cons_self _ _
      · have hr := ih htl
        by_cases hc : hd.isFile = true ∧ hd.mtime < now - 2 * 3600
        · by_cases hfl : fails hd.name = true
          · simp only [cleanupOldGo, if_pos hc, if_pos hfl]
            exact List.mem_cons_of_mem _ hr
          · simp only [cleanupOldGo, if_pos hc, if_neg hfl]
            exact hr
        · simp only [cleanupOldGo, if_neg hc]
          exact List.mem_cons_of_mem _ hr
  · intro now fails dir nm hmem
    induction dir with
    | nil => simp [cleanupOldGo] at hmem
    | cons hd tl ih =>
      by_cases hc : hd.isFile = true ∧ hd.mtime < now - 2 * 3600
      · by_cases hfl : fails hd.name = true
        · simp only [cleanupOldGo, if_pos hc, if_pos hfl] at hmem
          obtain ⟨e, he, rest⟩ := ih hmem
          exact ⟨e, List.mem_cons_of_mem _ he, rest⟩
        · simp only [cleanupOldGo, if_pos hc, if_neg hfl, List.mem_cons] at hmem
          rcases hmem with rfl | hmem
          · exact ⟨hd, List.mem_cons_self _ _, rfl, hc.1, hc.2⟩
          · obtain ⟨e, he, rest⟩ := ih hmem
            exact ⟨e, List.mem_cons_of_mem _ he, rest⟩
      · simp only [cleanupOldGo, if_neg hc] at hmem
        obtain ⟨e, he, rest⟩ := ih hmem
        exact ⟨e, List.mem_cons_of_mem _ he, rest⟩

/-- C9 witness: missing directory untouched; a subdirectory entry and a fresh
file survive; a concrete removed name came from a stale regular file. -/
theorem c9_sweep_safety_witness :
    cleanupOld 10000 (fun _ => false) false [⟨"k.mkv", 0, true⟩]
      = ⟨[⟨"k.mkv", 0, true⟩], []⟩
    ∧ (⟨"sub", 0, false⟩ : Entry)
        ∈ (cleanupOldGo 10000 (fun _ => false) [⟨"sub", 0, false⟩]).dir
    ∧ ∃ e, e ∈ [(⟨"old.mkv", 0, true⟩ : Entry)] ∧ e.name = "old.mkv"
        ∧ e.isFile = true ∧ e.mtime < 10000 - 2 * 3600 :=
  ⟨c9_sweep_safety.1 10000 (fun _ => false) [⟨"k.mkv", 0, true⟩],
   c9_sweep_safety.2.1 10000 (fun _ => false) [⟨"sub", 0, false⟩]
     ⟨"sub", 0, false⟩ (by decide) (Or.inl rfl),
   c9_sweep_safety.2.2 10000 (fun _ => false) [⟨"old.mkv", 0, true⟩]
     "old.mkv" (by decide)⟩

/-- C3: the worker's error text is classified by substring matching and the
request handler maps each class to its HTTP status: every bot/sign-in error
reaches 429; every (otherwise unclassified) unavailable error reaches 404;
every age-restricted error and every copyright error reaches 400; a private
video error reaches 400 via the generic rewrite; and a plain generic error
reaches 500.  Each of the six classes is thereby producible with its mapped
status. -/
theorem c3_error_classes_mapped :
    (∀ e : String,
      (containsSub (lowerStr e) "bot" || containsSub (lowerStr e) "sign in") = true →
      httpStatus (classifyRaise e) = 429)
    ∧ (∀ e : String,
      (containsSub (lowerStr e) "bot" || containsSub (lowerStr e) "sign in") = false →
      (containsSub (lowerStr e) "video unavailable"
        || containsSub (lowerStr e) "unavailable") = true →
      httpStatus (classifyRaise e) = 404)
    ∧ (∀ e : String,
      (containsSub (lowerStr e) "bot" || containsSub (lowerStr e) "sign in") = false →
      (containsSub (lowerStr e) "video unavailable"
        || containsSub (lowerStr e) "unavailable") = false →
      (containsSub (lowerStr e) "age" && containsSub (lowerStr e) "restricted") = true →
      httpStatus (classifyRaise e) = 400)
    ∧ (∀ e : String,
      (containsSub (lowerStr e) "bot" || containsSub (lowerStr e) "sign in") = false →
      (containsSub (lowerStr e) "video unavailable"
        || containsSub (lowerStr e) "unavailable") = false →
      (containsSub (lowerStr e) "age" && containsSub (lowerStr e) "restricted") = false →
      containsSub (lowerStr e) "copyright" = true →
      httpStatus (classifyRaise e) = 400)
    ∧ httpStatus (classifyRaise "This video is private") = 400
    ∧ httpStatus (classifyRaise "network timeout") = 500 := by
  refine ⟨?_, ?_, ?_, ?_, by decide, by decide⟩
  · intro e h
    simp only [classifyRaise, h, if_true]
    decide
  · intro e h1 h2
    simp only [classifyRaise, h1, h2, Bool.false_eq_true, if_false, if_true]
    decide
  · intro e h1 h2 h3
    simp only [classifyRaise, h1, h2, h3, Bool.false_eq_true, if_false, if_true]
    decide
  · intro e h1 h2 h3 h4
    simp only [classifyRaise, h1, h2, h3, h4, Bool.false_eq_true, if_false, if_true]
    decide

/-- C3 witness: one concrete error text per classified branch. -/
theorem c3_error_classes_mapped_witness :
    httpStatus (classifyRaise "Sign in to confirm you are not a bot") = 429
    ∧ httpStatus (classifyRaise "ERROR: Video unavailable") = 404
    ∧ httpStatus (classifyRaise "this video is age restricted") = 400
    ∧ httpStatus (classifyRaise "blocked due to copyright claim") = 400 :=
  ⟨c3_error_classes_mapped.1 "Sign in to confirm you are not a bot" (by decide),
   c3_error_classes_mapped.2.1 "ERROR: Video unavailable" (by decide) (by decide),
   c3_error_classes_mapped.2.2.1 "this video is age restricted" (by decide)
     (by decide) (by decide),
   c3_error_classes_mapped.2.2.2.1 "blocked due to copyright claim" (by decide)
     (by decide) (by decide) (by decide)⟩

/-- C4: when the first strategy fails with a bot-detection error and the
second succeeds, the strategy loop returns the second strategy's extraction
result, tagged with strategy index 1. -/
theorem c4_second_strategy_result {α : Type} (attempt : Nat → Except String α)
    (n : Nat) (e : String) (v : α) (hn : 2 ≤ n)
    (h0 : attempt 0 = .error e)
    (hbot : (containsSub (lowerStr e) "bot"
      || containsSub (lowerStr e) "sign in") = true)
    (h1 : attempt 1 = .ok v) :
    tryStrategies attempt n = .ok (1, v) := by
  obtain ⟨m, rfl⟩ : ∃ m, n = m + 2 := ⟨n - 2, by omega⟩
  simp only [tryStrategies]
  rw [show m + 2 = (m + 1) + 1 from rfl, List.range_succ_eq_map,
    List.range_succ_eq_map]
  simp only [List.map_cons, loopStrats, h0, h1, hbot, if_true]

/-- C4 witness: a concrete blocked-then-success attempt sequence over the five
strategies. -/
theorem c4_second_strategy_result_witness :
    tryStrategies
      (fun i => if i == 0 then (Except.error "Sign in to confirm you are not a bot")
        else Except.ok "info") 5
      = Except.ok (1, "info") :=
  c4_second_strategy_result
    (fun i => if i == 0 then (Except.error "Sign in to confirm you are not a bot")
      else Except.ok "info")
    5 "Sign in to confirm you are not a bot" "info" (by omega) rfl (by decide) rfl

/-! Floor arithmetic helpers for `_format_duration`. -/

theorem int_floor_eq_nat_floor (q : ℚ) (hq : 0 ≤ q) : ⌊q⌋ = (⌊q⌋₊ : ℤ) := by
  rw [← Int.floor_toNat]
  exact (Int.toNat_of_nonneg (Int.floor_nonneg.mpr hq)).symm

theorem int_floor_div_60 (q : ℚ) (hq : 0 ≤ q) :
    ⌊q / 60⌋ = ((⌊q⌋₊ / 60 : ℕ) : ℤ) := by
  have h2 : (0 : ℚ) ≤ q / 60 := by positivity
  rw [int_floor_eq_nat_floor _ h2, Nat.floor_div_ofNat]

theorem int_floor_div_3600 (q : ℚ) (hq : 0 ≤ q) :
    ⌊q / 3600⌋ = ((⌊q⌋₊ / 3600 : ℕ) : ℤ) := by
  have h2 : (0 : ℚ) ≤ q / 3600 := by positivity
  rw [int_floor_eq_nat_floor _ h2, Nat.floor_div_ofNat]

theorem pyInt_intCast (z : ℤ) : pyInt ((z : ℤ) : ℚ) = z := by
  unfold pyInt
  split
  · exact Int.floor_intCast z
  · exact Int.ceil_intCast z

theorem pyInt_of_nonneg (q : ℚ) (hq : 0 ≤ q) : pyInt q = ⌊q⌋ := by
  unfold pyInt
  exact if_pos hq

theorem pyHours (q : ℚ) (hq : 0 ≤ q) :
    pyInt (pyFloorDiv q 3600) = ((⌊q⌋₊ / 3600 : ℕ) : ℤ) := by
  rw [pyFloorDiv, pyInt_intCast, int_floor_div_3600 q hq]

theorem pyMinutes (q : ℚ) (hq : 0 ≤ q) :
    pyInt (pyFloorDiv (pyMod q 3600) 60) = ((⌊q⌋₊ / 60 % 60 : ℕ) : ℤ) := by
  have hmodc : pyMod q 3600 = q - ((3600 * ⌊q / 3600⌋ : ℤ) : ℚ) := by
    rw [pyMod]
    push_cast
    ring
  have harith : (q - ((3600 * ⌊q / 3600⌋ : ℤ) : ℚ)) / 60
      = q / 60 - ((60 * ⌊q / 3600⌋ : ℤ) : ℚ) := by
    push_cast
    ring
  rw [pyFloorDiv, pyInt_intCast, hmodc, harith, Int.floor_sub_int,
    int_floor_div_60 q hq, int_floor_div_3600 q hq]
  omega

theorem pySeconds (q : ℚ) (hq : 0 ≤ q) :
    pyInt (pyMod q 60) = ((⌊q⌋₊ % 60 : ℕ) : ℤ) := by
  have hle : ((⌊q / 60⌋ : ℤ) : ℚ) ≤ q / 60 := Int.floor_le _
  have h1 : (60 : ℚ) * ((⌊q / 60⌋ : ℤ) : ℚ) ≤ q := by
    have h2 := mul_le_mul_of_nonneg_left hle (by norm_num : (0 : ℚ) ≤ 60)
    calc (60 : ℚ) * ((⌊q / 60⌋ : ℤ) : ℚ) ≤ 60 * (q / 60) := h2
      _ = q := by ring
  have hcast : pyMod q 60 = q - ((60 * ⌊q / 60⌋ : ℤ) : ℚ) := by
    rw [pyMod]
    push_cast
    ring
  have hnn : 0 ≤ pyMod q 60 := by
    rw [hcast]
    push_cast
    linarith
  rw [pyInt_of_nonneg _ hnn, hcast, Int.floor_sub_int,
    int_floor_eq_nat_floor q hq, int_floor_div_60 q hq]
  omega

/-- C10: `_format_duration` returns `None` exactly on `None`; for a
non-negative duration under 3600 seconds it returns the zero-padded `MM:SS`
string with no hours field, and for a duration of at least 3600 seconds the
zero-padded `HH:MM:SS` string, where the fields are the integer hours,
minutes and seconds of the input. -/
theorem c10_format_duration :
    (∀ d : Option ℚ, formatDuration d = none ↔ d = none)
    ∧ (∀ q : ℚ, 0 ≤ q → q < 3600 →
        formatDuration (some q)
          = some (pad2 ((⌊q⌋₊ / 60 : ℕ) : ℤ) ++ ":"
              ++ pad2 ((⌊q⌋₊ % 60 : ℕ) : ℤ)))
    ∧ (∀ q : ℚ, (3600 : ℚ) ≤ q →
        formatDuration (some q)
          = some (pad2 ((⌊q⌋₊ / 3600 : ℕ) : ℤ) ++ ":"
              ++ pad2 ((⌊q⌋₊ / 60 % 60 : ℕ) : ℤ) ++ ":"
              ++ pad2 ((⌊q⌋₊ % 60 : ℕ) : ℤ))) := by
  refine ⟨?_, ?_, ?_⟩
  · intro d
    cases d with
    | none => simp [formatDuration]
    | some q =>
      simp only [formatDuration]
      split <;> simp
  · intro q hq hlt
    have hN : ⌊q⌋₊ < 3600 := (Nat.floor_lt hq).mpr (by exact_mod_cast hlt)
    have hdiv0 : ⌊q⌋₊ / 3600 = 0 := Nat.div_eq_of_lt hN
    have hh := pyHours q hq
    have hm := pyMinutes q hq
    have hs := pySeconds q hq
    have hmod : ⌊q⌋₊ / 60 % 60 = ⌊q⌋₊ / 60 := by omega
    simp only [formatDuration]
    rw [hh, hm, hs, hdiv0, hmod]
    rw [if_neg (by norm_num : ¬(((0 : ℕ) : ℤ) > 0))]
  · intro q hge
    have hq : 0 ≤ q := le_trans (by norm_num) hge
    have hNge : 3600 ≤ ⌊q⌋₊ := Nat.le_floor (by exact_mod_cast hge)
    have hh := pyHours q hq
    have hm := pyMinutes q hq
    have hs := pySeconds q hq
    have hpos : ((⌊q⌋₊ / 3600 : ℕ) : ℤ) > 0 := by omega
    simp only [formatDuration]
    rw [hh, hm, hs, if_pos hpos]

/-- C10 witness: `None`, a sub-hour duration and an over-hour duration. -/
theorem c10_format_duration_witness :
    formatDuration none = none
    ∧ formatDuration (some 75) = some (pad2 1 ++ ":" ++ pad2 15)
    ∧ formatDuration (some 3725) = some (pad2 1 ++ ":" ++ pad2 2 ++ ":" ++ pad2 5) := by
  refine ⟨(c10_format_duration.1 none).mpr rfl, ?_, ?_⟩
  · have h := c10_format_duration.2.1 75 (by norm_num) (by norm_num)
    norm_num at h
    exact h
  · have h := c10_format_duration.2.2 3725 (by norm_num)
    norm_num at h
    exact h

end Ytdl
